import Mathlib

/-!
Verification of the bibliographic record normalization, deduplication and
stage-progression engine of the SystematicReviewManagement repository
(`lsr_core.py` and the Confirm & Import handler of `lsr_app.py`),
as a shallow embedding in Lean 4.
-/

namespace LSR

/-! ### Python string primitives used by the engine

`pyLower` models Python's `str.lower` (restricted to the ASCII case change
that `Char.toLower` performs), `pyStrip` models `str.strip` (drop whitespace
from both ends). -/

/-- Model of Python `str.lower` on a single character (ASCII case fold). -/
def pyCharLower (c : Char) : Char :=
  if c.toNat ≥ 65 ∧ c.toNat ≤ 90 then Char.ofNat (c.toNat + 32) else c

/-- Model of Python `str.lower`. -/
def pyLower (s : String) : String := ⟨s.data.map pyCharLower⟩

/-- Drop whitespace from both ends of a character list. -/
def stripList (l : List Char) : List Char :=
  ((l.dropWhile Char.isWhitespace).reverse.dropWhile Char.isWhitespace).reverse

/-- Model of Python `str.strip`. -/
def pyStrip (s : String) : String := ⟨stripList s.data⟩

theorem toNat_ofNat_shift (c : Char) (h1 : c.toNat ≥ 65) (h2 : c.toNat ≤ 90) :
    (Char.ofNat (c.toNat + 32)).toNat = c.toNat + 32 := by
  have hvalid : (c.toNat + 32).isValidChar := by left; omega
  rw [Char.ofNat, dif_pos hvalid]
  rfl

theorem isWhitespace_false_of_ge (c : Char) (h1 : c.toNat ≥ 65) :
    c.isWhitespace = false := by
  cases hiw : c.isWhitespace
  · rfl
  · exfalso
    simp [Char.isWhitespace] at hiw
    rcases hiw with ((h | h) | h) | h <;> (subst h; exact absurd h1 (by decide))

theorem isWhitespace_pyCharLower (c : Char) :
    (pyCharLower c).isWhitespace = c.isWhitespace := by
  unfold pyCharLower
  split
  · rename_i h
    rw [isWhitespace_false_of_ge c h.1, isWhitespace_false_of_ge]
    rw [toNat_ofNat_shift c h.1 h.2]
    omega
  · rfl

theorem dropWhile_map_pyCharLower (l : List Char) :
    (l.map pyCharLower).dropWhile Char.isWhitespace
      = (l.dropWhile Char.isWhitespace).map pyCharLower := by
  induction l with
  | nil => rfl
  | cons a l ih =>
    simp only [List.map_cons, List.dropWhile_cons, isWhitespace_pyCharLower]
    by_cases h : a.isWhitespace
    · simp [h, ih]
    · simp [h]

theorem stripList_map_pyCharLower (l : List Char) :
    stripList (l.map pyCharLower) = (stripList l).map pyCharLower := by
  unfold stripList
  rw [dropWhile_map_pyCharLower, ← List.map_reverse, dropWhile_map_pyCharLower,
    ← List.map_reverse]

/-- `lower` and `strip` commute: lowercasing does not move whitespace. -/
theorem pyStrip_pyLower (s : String) :
    pyStrip (pyLower s) = pyLower (pyStrip s) := by
  simp only [pyStrip, pyLower]
  exact congrArg String.mk (stripList_map_pyCharLower s.data)

theorem dropWhile_idem {α : Type} (p : α → Bool) (l : List α) :
    (l.dropWhile p).dropWhile p = l.dropWhile p := by
  induction l with
  | nil => rfl
  | cons a l ih =>
    by_cases h : p a
    · simp [List.dropWhile_cons, h, ih]
    · simp [List.dropWhile_cons, h]

theorem dropWhile_suffix {α : Type} (p : α → Bool) (l : List α) :
    ∃ pre, l = pre ++ l.dropWhile p := by
  induction l with
  | nil => exact ⟨[], rfl⟩
  | cons a l ih =>
    by_cases h : p a
    · obtain ⟨pre, hpre⟩ := ih
      exact ⟨a :: pre, by simp [List.dropWhile_cons, h, ← hpre]⟩
    · exact ⟨[], by simp [List.dropWhile_cons, h]⟩

theorem head?_dropWhile_not {α : Type} (p : α → Bool) (l : List α) :
    ∀ a, (l.dropWhile p).head? = some a → p a = false := by
  induction l with
  | nil => intro a h; simp at h
  | cons b l ih =>
    intro a h
    by_cases hb : p b
    · exact ih a (by simpa [List.dropWhile_cons, hb] using h)
    · simp [List.dropWhile_cons, hb] at h
      subst h
      simpa using hb

theorem dropWhile_eq_self_of_head? {α : Type} (p : α → Bool) (l : List α)
    (h : ∀ a, l.head? = some a → p a = false) : l.dropWhile p = l := by
  cases l with
  | nil => rfl
  | cons a l => simp [List.dropWhile_cons, h a rfl]

theorem stripList_idem (l : List Char) : stripList (stripList l) = stripList l := by
  have claim1 : (stripList l).dropWhile Char.isWhitespace = stripList l := by
    apply dropWhile_eq_self_of_head?
    intro a ha
    -- head of `stripList l` is the last element of the inner `dropWhile`,
    -- a suffix of `(l.dropWhile _).reverse`, whose last element is the head of
    -- `l.dropWhile _`, which fails `isWhitespace`.
    rw [stripList, List.head?_reverse] at ha
    obtain ⟨pre, hpre⟩ :=
      dropWhile_suffix Char.isWhitespace (l.dropWhile Char.isWhitespace).reverse
    have hCne :
        (l.dropWhile Char.isWhitespace).reverse.dropWhile Char.isWhitespace ≠ [] := by
      intro hnil
      rw [hnil] at ha
      simp at ha
    have hlast : (l.dropWhile Char.isWhitespace).reverse.getLast? = some a := by
      rw [hpre, List.getLast?_append_of_ne_nil pre hCne]
      exact ha
    rw [List.getLast?_reverse] at hlast
    exact head?_dropWhile_not Char.isWhitespace l a hlast
  have claim2 :
      (stripList l).reverse.dropWhile Char.isWhitespace = (stripList l).reverse := by
    rw [stripList, List.reverse_reverse, dropWhile_idem]
  show (((stripList l).dropWhile Char.isWhitespace).reverse.dropWhile
      Char.isWhitespace).reverse = stripList l
  rw [claim1, claim2, List.reverse_reverse]

/-- `strip` is idempotent. -/
theorem pyStrip_idem (s : String) : pyStrip (pyStrip s) = pyStrip s := by
  simp only [pyStrip]
  exact congrArg String.mk (stripList_idem s.data)

/-! ### Data model of `lsr_core.py`

A candidate record is a dict handed to `update_lsr_database`; `title` holds
`str(r.get("title", ""))` (the stringified value, `""` when the key is
absent). A stored row is one row of the persisted per-project CSV dataset. -/

structure CandidateRecord where
  database : Option String := none
  title : String := ""
  journal : Option String := none
  year : Option String := none
  abstract : Option String := none
  abstract_source : String := "csv_import"
  deriving Repr, DecidableEq

structure StoredRow where
  database : Option String
  title : String
  journal : Option String
  year : Option String
  abstract : Option String
  abstract_source : String
  search_id : Int
  search_start_year : Int
  search_end_year : Int
  run_date : String
  deriving Repr, DecidableEq

/-- A dataset as read back from a CSV file: `idColName` is the name of the
batch-identifier column actually present in the file (`"search_id"` in the
current schema, `"search_round"` in legacy files); `rows` its rows, with the
batch-identifier column's values held in the `search_id` field. -/
structure RawDataset where
  idColName : String
  rows : List StoredRow
  deriving Repr, DecidableEq

/-- The state of the project CSV file on disk: `absent` models
`not os.path.exists(p) or os.path.getsize(p) == 0`. -/
inductive DatasetFile where
  | absent : DatasetFile
  | present : RawDataset → DatasetFile
  deriving Repr, DecidableEq

/-- `df_old.rename(columns={"search_round": "search_id"})` guarded by
`"search_id" not in df_old.columns and "search_round" in df_old.columns`. -/
def migrateLegacy (d : RawDataset) : RawDataset :=
  if d.idColName ≠ "search_id" ∧ d.idColName = "search_round" then
    { d with idColName := "search_id" }
  else d

/-- `int(df_old["search_id"].max())` over a column of ints: `none` models the
`KeyError`/`ValueError` raised when the column is missing or the frame has no
rows (`int(nan)`). -/
def maxSearchId (d : RawDataset) : Option Int :=
  if d.idColName = "search_id" then
    match d.rows with
    | [] => none
    | r :: rs => some (rs.foldl (fun m x => max m x.search_id) r.search_id)
  else none

/-- The normalized key a stored title contributes to `existing_titles`:
`df_old["title"].astype(str).str.lower().str.strip()`. -/
def storedTitleKey (r : StoredRow) : String := pyStrip (pyLower r.title)

/-- The merge loop of `update_lsr_database` (lines 89–110): `existing` is the
pre-batch set of normalized titles, fixed for the whole loop. -/
def processRecords (existing : List String) (nextId : Int)
    (ssy sey : Int) (runDate : String) : List CandidateRecord → List StoredRow
  | [] => []
  | r :: rs =>
    let title := pyStrip r.title
    if title = "" then
      processRecords existing nextId ssy sey runDate rs
    else if existing.contains (pyLower title) then
      processRecords existing nextId ssy sey runDate rs
    else
      { database := r.database
        title := title
        journal := r.journal
        year := r.year
        abstract := r.abstract
        abstract_source := r.abstract_source
        search_id := nextId
        search_start_year := ssy
        search_end_year := sey
        run_date := runDate } :: processRecords existing nextId ssy sey runDate rs

/-- The load section of `update_lsr_database` (lines 72–87): the existing
rows and the next batch id, or `none` for an uncaught exception. -/
def loadDataset : DatasetFile → Option (List StoredRow × Int)
  | .absent => some ([], 1)
  | .present d =>
    match maxSearchId (migrateLegacy d) with
    | none => none
    | some m => some ((migrateLegacy d).rows, m + 1)

/-- Shallow embedding of `update_lsr_database` (lsr_core.py lines 64–119).
`runDate` stands for `date.today().isoformat()`. The result is the new file
state, the count of rows added and the batch id used; `none` models an
uncaught exception while loading the existing dataset. -/
def update_lsr_database (records : List CandidateRecord) (file : DatasetFile)
    (ssy sey : Int) (runDate : String) :
    Option (DatasetFile × Nat × Int) :=
  match loadDataset file with
  | none => none
  | some (oldRows, nextId) =>
    let existing := oldRows.map storedTitleKey
    let newRows := processRecords existing nextId ssy sey runDate records
    some (.present ⟨"search_id", oldRows ++ newRows⟩, newRows.length, nextId)

/-- The rows of a dataset file (what `pd.read_csv` would yield). -/
def oldRowsOf : DatasetFile → List StoredRow
  | .absent => []
  | .present d => d.rows

/-! ### Column alias resolver (`lsr_core.py` lines 8–41) -/

/-- `s.replace(c, "")`: remove every occurrence of a character. -/
def removeAll (s : String) (c : Char) : String := ⟨s.data.filter (· ≠ c)⟩

/-- `col.lower().replace(" ", "").replace("_", "")`. -/
def normalize_colname (col : String) : String :=
  removeAll (removeAll (pyLower col) ' ') '_'

/-- The alias sets of `COLUMN_ALIASES`, written in source display order.
They are Python `set`s: iteration order is unspecified, so theorems quantify
over permutations of these lists. -/
def titleAliases : List String :=
  ["title", "articletitle", "documenttitle", "publicationtitle", "itemtitle", "ti"]

def abstractAliases : List String :=
  ["abstract", "abstracttext", "abstractnote", "summary", "description", "ab"]

def journalAliases : List String :=
  ["journal", "journal/book", "source", "sourcetitle", "publicationname",
   "containertitle", "so"]

def yearAliases : List String :=
  ["year", "publicationyear", "py", "date", "issued"]

/-- `normalized = {normalize_colname(c): c for c in df.columns}` as an
association list in insertion order; a Python dict lookup returns the value
of the LAST binding for a key. -/
def buildNormalized (cols : List String) : List (String × String) :=
  cols.map (fun c => (normalize_colname c, c))

/-- Python dict lookup on the association list: last binding wins. -/
def dictLookup (m : List (String × String)) (k : String) : Option String :=
  (m.reverse.find? (fun p => p.1 = k)).map (·.2)

/-- `next((normalized[a] for a in aliases if a in normalized), None)`,
for one concrete iteration order of the alias set. -/
def resolveField (normalized : List (String × String))
    (aliases : List String) : Option String :=
  aliases.findSome? (fun a => dictLookup normalized a)

structure ResolvedColumns where
  title : Option String
  abstract : Option String
  journal : Option String
  year : Option String
  deriving Repr, DecidableEq

/-- Shallow embedding of `resolve_bibliographic_columns`; the four list
arguments are the iteration orders of the four alias sets. -/
def resolve_bibliographic_columns (tOrd aOrd jOrd yOrd : List String)
    (cols : List String) : ResolvedColumns :=
  let normalized := buildNormalized cols
  { title := resolveField normalized tOrd
    abstract := resolveField normalized aOrd
    journal := resolveField normalized jOrd
    year := resolveField normalized yOrd }

/-! ### The Confirm & Import handler of `lsr_app.py` (lines 678–770)

`STAGE_ORDER` has three entries; `stage0` is the cumulative dedup dataset
(`records_deduplicated.csv`), maintained by the merge store; `stage1` and
`stage2` (`records_after_ta.csv`, `records_after_ft.csv`) are wholesale
replacements, modelled by their row counts (`none` = file absent).
`searches` is the provenance log (`metadata["searches"]`). -/

inductive StageIdx where
  | s0 | s1 | s2
  deriving Repr, DecidableEq

structure SearchEntry where
  search_id : Option Int
  database : Option String
  search_strategy : Option String
  search_start_year : Int
  search_end_year : Int
  run_date : String
  records_raw : Nat
  records_deduplicated : Option Nat
  import_stage : StageIdx
  deriving Repr, DecidableEq

structure AppState where
  stage0 : DatasetFile
  stage1 : Option Nat
  stage2 : Option Nat
  searches : List SearchEntry
  deriving Repr, DecidableEq

/-- One row of the standardized upload `df_std` (after the rename and the
column padding of lines 686–706), restricted to the canonical fields. -/
structure UploadRow where
  title : String := ""
  journal : Option String := none
  year : Option String := none
  abstract : Option String := none
  deriving Repr, DecidableEq

/-- `normalize_and_import_csv` (lsr_core.py lines 126–150). -/
def normalize_and_import_csv (rows : List UploadRow) (file : DatasetFile)
    (dbName : String) (ssy sey : Int) (runDate : String) :
    Option (DatasetFile × Nat × Int) :=
  update_lsr_database
    (rows.map fun r =>
      { database := some dbName
        title := r.title
        journal := r.journal
        year := r.year
        abstract := r.abstract
        abstract_source := "csv_import" })
    file ssy sey runDate

/-- `count_rows` (lsr_app.py lines 290–293) on the stage-0 file. -/
def countRows0 : DatasetFile → Nat
  | .absent => 0
  | .present d => d.rows.length

/-- `count_rows` on a stage-1/stage-2 file modelled by its row count. -/
def countRowsOpt : Option Nat → Nat
  | none => 0
  | some k => k

inductive ImportResult where
  | rejected : String → ImportResult
  | imported : Nat → ImportResult
  | crashed : ImportResult
  deriving Repr, DecidableEq

/-- The Confirm & Import button handler: stage-order validation
(lines 712–730), then save by stage (lines 736–755) and the provenance
append (lines 757–769). `rejected` models `st.error(...); st.stop()`;
`crashed` an uncaught exception out of the merge store. -/
def confirmImport (st : AppState) (stage : StageIdx) (rows : List UploadRow)
    (dbName strategy : String) (ssy sey : Int) (runDate : String) :
    AppState × ImportResult :=
  let currentCount := rows.length
  let saveStage0 : AppState × ImportResult :=
    match normalize_and_import_csv rows st.stage0 dbName ssy sey runDate with
    | none => (st, .crashed)
    | some (f', added, sid) =>
      let entry : SearchEntry :=
        { search_id := some sid
          database := some dbName
          search_strategy := some strategy
          search_start_year := ssy
          search_end_year := sey
          run_date := runDate
          records_raw := currentCount
          records_deduplicated := some added
          import_stage := .s0 }
      ({ st with stage0 := f', searches := st.searches ++ [entry] },
        .imported added)
  let replaceEntry (sIdx : StageIdx) : SearchEntry :=
    { search_id := none
      database := none
      search_strategy := none
      search_start_year := ssy
      search_end_year := sey
      run_date := runDate
      records_raw := currentCount
      records_deduplicated := none
      import_stage := sIdx }
  match stage with
  | .s0 => saveStage0
  | .s1 =>
    if st.stage0 = .absent then
      (st, .rejected "You must first register a CSV for the previous stage.")
    else if currentCount > countRows0 st.stage0 then
      (st, .rejected "Invalid CSV: records exceed previous stage.")
    else
      ({ st with stage1 := some currentCount
                 searches := st.searches ++ [replaceEntry .s1] },
        .imported currentCount)
  | .s2 =>
    if st.stage1 = none then
      (st, .rejected "You must first register a CSV for the previous stage.")
    else if currentCount > countRowsOpt st.stage1 then
      (st, .rejected "Invalid CSV: records exceed previous stage.")
    else
      ({ st with stage2 := some currentCount
                 searches := st.searches ++ [replaceEntry .s2] },
        .imported currentCount)

/-- The narrowing invariant of the spec:
`count(stage[n]) ≤ count(stage[n-1])` for `n = 1, 2`, with `count_rows`
returning 0 for an absent file. -/
def narrowing (st : AppState) : Prop :=
  countRowsOpt st.stage1 ≤ countRows0 st.stage0 ∧
  countRowsOpt st.stage2 ≤ countRowsOpt st.stage1

instance (st : AppState) : Decidable (narrowing st) := by
  unfold narrowing
  infer_instance

/-! ### Helper lemmas -/

theorem migrateLegacy_rows (d : RawDataset) : (migrateLegacy d).rows = d.rows := by
  unfold migrateLegacy
  split <;> rfl

theorem loadDataset_rows (file : DatasetFile) (oldRows : List StoredRow)
    (nextId : Int) (h : loadDataset file = some (oldRows, nextId)) :
    oldRows = oldRowsOf file := by
  cases file with
  | absent =>
    simp [loadDataset] at h
    simp [oldRowsOf, h.1]
  | present d =>
    simp only [loadDataset] at h
    cases hm : maxSearchId (migrateLegacy d) with
    | none => rw [hm] at h; exact absurd h (by simp)
    | some m =>
      rw [hm] at h
      simp at h
      rw [oldRowsOf, ← migrateLegacy_rows, h.1]

theorem processRecords_search_id (existing : List String) (nextId ssy sey : Int)
    (rd : String) (records : List CandidateRecord) :
    ∀ r ∈ processRecords existing nextId ssy sey rd records, r.search_id = nextId := by
  induction records with
  | nil => intro r hr; simp [processRecords] at hr
  | cons a l ih =>
    intro r hr
    simp only [processRecords] at hr
    split at hr
    · exact ih r hr
    · split at hr
      · exact ih r hr
      · rcases List.mem_cons.mp hr with hr | hr
        · rw [hr]
        · exact ih r hr

theorem processRecords_drop_empty_title (existing : List String)
    (nextId ssy sey : Int) (rd : String) (r : CandidateRecord)
    (h : pyStrip r.title = "") (pre post : List CandidateRecord) :
    processRecords existing nextId ssy sey rd (pre ++ r :: post)
      = processRecords existing nextId ssy sey rd (pre ++ post) := by
  induction pre with
  | nil => simp [processRecords, h]
  | cons a pre ih =>
    simp only [List.cons_append, processRecords, List.append_eq]
    rw [ih]

/-! ### Claim theorems -/

/-- C3: within a single call to `update_lsr_database`, candidates are only
deduplicated against pre-call titles, never against records accepted earlier
in the same batch: on an empty dataset, a batch of two records both titled
"E" adds both rows and the call returns `(2, 1)`. -/
theorem c3_intra_batch_not_deduplicated (ssy sey : Int) (rd : String) :
    update_lsr_database [{ title := "E" }, { title := "E" }] .absent ssy sey rd
      = some (.present ⟨"search_id",
          [{ database := none, title := "E", journal := none, year := none,
             abstract := none, abstract_source := "csv_import", search_id := 1,
             search_start_year := ssy, search_end_year := sey, run_date := rd },
           { database := none, title := "E", journal := none, year := none,
             abstract := none, abstract_source := "csv_import", search_id := 1,
             search_start_year := ssy, search_end_year := sey, run_date := rd }]⟩,
          2, 1) := by
  rfl

/-- C8: a candidate whose title is empty after trimming is silently dropped
during the merge: removing it from the batch changes nothing about the
result — no row added, no error, remaining records processed unaffected. -/
theorem c8_empty_title_silently_dropped (r : CandidateRecord)
    (h : pyStrip r.title = "") (pre post : List CandidateRecord)
    (file : DatasetFile) (ssy sey : Int) (rd : String) :
    update_lsr_database (pre ++ r :: post) file ssy sey rd
      = update_lsr_database (pre ++ post) file ssy sey rd := by
  unfold update_lsr_database
  cases loadDataset file with
  | none => rfl
  | some p =>
    obtain ⟨oldRows, nextId⟩ := p
    simp only
    rw [processRecords_drop_empty_title _ _ _ _ _ r h pre post]

theorem c8_empty_title_silently_dropped_witness :
    update_lsr_database
        [{ title := "  " }, { title := "B" }] .absent 2000 2020 "2026-01-01"
      = update_lsr_database [{ title := "B" }] .absent 2000 2020 "2026-01-01" :=
  c8_empty_title_silently_dropped { title := "  " } (by decide) []
    [{ title := "B" }] .absent 2000 2020 "2026-01-01"

/-- Sample stored row with batch id 5, used by concrete witnesses. -/
def sampleRow5 : StoredRow :=
  { database := none, title := "X", journal := none, year := none,
    abstract := none, abstract_source := "csv_import", search_id := 5,
    search_start_year := 1, search_end_year := 2, run_date := "2026-01-01" }

/-- C4: the batch id is `max(existing search_id) + 1` for a non-empty loaded
dataset and `1` for an empty/absent one; every surviving record is stamped
with exactly that id, and the call returns `(rows added, id)`. -/
theorem c4_batch_identifier (records : List CandidateRecord) (file : DatasetFile)
    (ssy sey : Int) (rd : String) (f' : DatasetFile) (n : Nat) (sid : Int)
    (h : update_lsr_database records file ssy sey rd = some (f', n, sid)) :
    (file = .absent → sid = 1) ∧
    (∀ d, file = .present d → maxSearchId (migrateLegacy d) = some (sid - 1)) ∧
    ∃ newRows : List StoredRow,
      f' = .present ⟨"search_id", oldRowsOf file ++ newRows⟩ ∧
      n = newRows.length ∧
      ∀ r ∈ newRows, r.search_id = sid := by
  unfold update_lsr_database at h
  cases hl : loadDataset file with
  | none => rw [hl] at h; exact absurd h (by simp)
  | some p =>
    obtain ⟨oldRows, nextId⟩ := p
    rw [hl] at h
    simp only [Option.some.injEq, Prod.mk.injEq] at h
    obtain ⟨hf, hn, hid⟩ := h
    refine ⟨?_, ?_, processRecords (oldRows.map storedTitleKey) nextId ssy sey rd records,
      ?_, hn.symm, ?_⟩
    · intro ha
      subst ha
      simp [loadDataset] at hl
      omega
    · intro d hd
      subst hd
      simp only [loadDataset] at hl
      cases hm : maxSearchId (migrateLegacy d) with
      | none => rw [hm] at hl; exact absurd hl (by simp)
      | some m =>
        rw [hm] at hl
        simp at hl
        simp only [Option.some.injEq]
        omega
    · rw [← hf, ← loadDataset_rows file oldRows nextId hl]
    · rw [← hid]
      exact processRecords_search_id _ _ _ _ _ _

theorem c4_batch_identifier_witness :
    ((DatasetFile.present ⟨"search_id", [sampleRow5]⟩) = DatasetFile.absent →
        (6 : Int) = 1) ∧
    (∀ d, DatasetFile.present ⟨"search_id", [sampleRow5]⟩ = .present d →
        maxSearchId (migrateLegacy d) = some (6 - 1)) ∧
    ∃ newRows : List StoredRow,
      DatasetFile.present ⟨"search_id",
          [sampleRow5,
           { database := none, title := "N", journal := none, year := none,
             abstract := none, abstract_source := "csv_import", search_id := 6,
             search_start_year := 1, search_end_year := 2,
             run_date := "2026-02-02" }]⟩
        = .present ⟨"search_id",
            oldRowsOf (.present ⟨"search_id", [sampleRow5]⟩) ++ newRows⟩ ∧
      1 = newRows.length ∧
      ∀ r ∈ newRows, r.search_id = 6 :=
  c4_batch_identifier [{ title := "N" }] (.present ⟨"search_id", [sampleRow5]⟩)
    1 2 "2026-02-02"
    (.present ⟨"search_id",
      [sampleRow5,
       { database := none, title := "N", journal := none, year := none,
         abstract := none, abstract_source := "csv_import", search_id := 6,
         search_start_year := 1, search_end_year := 2,
         run_date := "2026-02-02" }]⟩)
    1 6 (by decide)

/-- C9: a dataset using the legacy batch-id column name `search_round` is
renamed to `search_id` before the next batch id is computed (the call behaves
exactly as on an already-migrated dataset), and the dataset persisted by the
call carries the new column name. -/
theorem c9_legacy_column_migration (rows : List StoredRow)
    (records : List CandidateRecord) (ssy sey : Int) (rd : String) :
    update_lsr_database records (.present ⟨"search_round", rows⟩) ssy sey rd
      = update_lsr_database records (.present ⟨"search_id", rows⟩) ssy sey rd ∧
    ∀ f' n sid,
      update_lsr_database records (.present ⟨"search_round", rows⟩) ssy sey rd
        = some (f', n, sid) →
      ∃ rs, f' = .present ⟨"search_id", rs⟩ := by
  have hmig : migrateLegacy ⟨"search_round", rows⟩ = ⟨"search_id", rows⟩ := by
    unfold migrateLegacy
    split
    · rfl
    · rename_i hcond
      exact absurd ⟨by simp, rfl⟩ hcond
  have hmig2 : migrateLegacy ⟨"search_id", rows⟩ = ⟨"search_id", rows⟩ := by
    unfold migrateLegacy
    split
    · rename_i hcond
      exact absurd rfl hcond.1
    · rfl
  have hload : loadDataset (.present ⟨"search_round", rows⟩)
      = loadDataset (.present ⟨"search_id", rows⟩) := by
    simp only [loadDataset, hmig, hmig2]
  constructor
  · unfold update_lsr_database
    rw [hload]
  · intro f' n sid h
    unfold update_lsr_database at h
    cases hl : loadDataset (DatasetFile.present ⟨"search_round", rows⟩) with
    | none => rw [hl] at h; exact absurd h (by simp)
    | some p =>
      obtain ⟨o, ni⟩ := p
      rw [hl] at h
      simp only [Option.some.injEq, Prod.mk.injEq] at h
      exact ⟨_, h.1.symm⟩

theorem c9_legacy_column_migration_witness :
    (update_lsr_database [{ title := "N" }]
        (.present ⟨"search_round", [sampleRow5]⟩) 1 2 "2026-02-02"
      = update_lsr_database [{ title := "N" }]
        (.present ⟨"search_id", [sampleRow5]⟩) 1 2 "2026-02-02") ∧
    ∃ rs, DatasetFile.present (⟨"search_id",
        [sampleRow5,
         { database := none, title := "N", journal := none, year := none,
           abstract := none, abstract_source := "csv_import", search_id := 6,
           search_start_year := 1, search_end_year := 2,
           run_date := "2026-02-02" }]⟩ : RawDataset)
      = .present ⟨"search_id", rs⟩ :=
  ⟨(c9_legacy_column_migration [sampleRow5] [{ title := "N" }] 1 2 "2026-02-02").1,
   (c9_legacy_column_migration [sampleRow5] [{ title := "N" }] 1 2 "2026-02-02").2
     (.present ⟨"search_id",
        [sampleRow5,
         { database := none, title := "N", journal := none, year := none,
           abstract := none, abstract_source := "csv_import", search_id := 6,
           search_start_year := 1, search_end_year := 2,
           run_date := "2026-02-02" }]⟩)
     1 6 (by decide)⟩

theorem storedTitleKey_eq (r : StoredRow) :
    storedTitleKey r = pyLower (pyStrip r.title) := pyStrip_pyLower r.title

/-- C6: dedup compares titles lowercased and trimmed on both sides: a
candidate (with a non-empty trimmed title, so that it reaches the duplicate
check) is dropped as a duplicate exactly when `lower(trim(T))` equals
`lower(trim(S))` for some stored title `S`. -/
theorem c6_dedup_lower_trim_both_sides (T : String) (hT : pyStrip T ≠ "")
    (c : CandidateRecord) (hc : c.title = T) (d : RawDataset)
    (ssy sey : Int) (rd : String) (f' : DatasetFile) (n : Nat) (sid : Int)
    (h : update_lsr_database [c] (.present d) ssy sey rd = some (f', n, sid)) :
    n = 0 ↔ ∃ r ∈ d.rows, pyLower (pyStrip T) = pyLower (pyStrip r.title) := by
  unfold update_lsr_database at h
  cases hl : loadDataset (DatasetFile.present d) with
  | none => rw [hl] at h; exact absurd h (by simp)
  | some p =>
    obtain ⟨o, ni⟩ := p
    have ho : o = d.rows := loadDataset_rows _ _ _ hl
    rw [hl] at h
    simp only [Option.some.injEq, Prod.mk.injEq] at h
    have hn : (processRecords (o.map storedTitleKey) ni ssy sey rd [c]).length = n :=
      h.2.1
    have hcontains :
        ((o.map storedTitleKey).contains (pyLower (pyStrip T)) = true) ↔
          ∃ r ∈ d.rows, pyLower (pyStrip T) = pyLower (pyStrip r.title) := by
      rw [List.elem_iff, List.mem_map]
      constructor
      · rintro ⟨r, hr, hkey⟩
        refine ⟨r, ho ▸ hr, ?_⟩
        rw [← hkey, storedTitleKey_eq]
      · rintro ⟨r, hr, hkey⟩
        exact ⟨r, ho ▸ hr, by rw [storedTitleKey_eq, hkey]⟩
    by_cases hmem : (o.map storedTitleKey).contains (pyLower (pyStrip T)) = true
    · have hzero : processRecords (o.map storedTitleKey) ni ssy sey rd [c] = [] := by
        simp only [processRecords, hc]
        rw [if_neg hT, if_pos hmem]
      rw [hzero] at hn
      simp only [List.length_nil] at hn
      rw [← hn]
      simp only [true_iff]
      exact hcontains.mp hmem
    · have hone : processRecords (o.map storedTitleKey) ni ssy sey rd [c]
          = [{ database := c.database, title := pyStrip T, journal := c.journal,
               year := c.year, abstract := c.abstract,
               abstract_source := c.abstract_source, search_id := ni,
               search_start_year := ssy, search_end_year := sey,
               run_date := rd }] := by
        simp only [processRecords, hc]
        rw [if_neg hT, if_neg hmem]
      rw [hone] at hn
      simp only [List.length_singleton] at hn
      constructor
      · intro h0; rw [← hn] at h0; exact absurd h0 (by simp)
      · intro hex; exact absurd (hcontains.mpr hex) hmem

theorem c6_dedup_lower_trim_both_sides_witness :
    (0 : Nat) = 0 ↔
      ∃ r ∈ ([{ database := none, title := "foo bar", journal := none,
                year := none, abstract := none, abstract_source := "csv_import",
                search_id := 1, search_start_year := 1, search_end_year := 2,
                run_date := "2026-01-01" }] : List StoredRow),
        pyLower (pyStrip "Foo Bar ") = pyLower (pyStrip r.title) :=
  c6_dedup_lower_trim_both_sides "Foo Bar " (by decide)
    { title := "Foo Bar " } rfl
    ⟨"search_id",
     [{ database := none, title := "foo bar", journal := none,
        year := none, abstract := none, abstract_source := "csv_import",
        search_id := 1, search_start_year := 1, search_end_year := 2,
        run_date := "2026-01-01" }]⟩
    1 2 "2026-02-02"
    (.present ⟨"search_id",
     [{ database := none, title := "foo bar", journal := none,
        year := none, abstract := none, abstract_source := "csv_import",
        search_id := 1, search_start_year := 1, search_end_year := 2,
        run_date := "2026-01-01" }]⟩)
    0 2 (by decide)

theorem migrateLegacy_id (rows : List StoredRow) :
    migrateLegacy ⟨"search_id", rows⟩ = ⟨"search_id", rows⟩ := by
  unfold migrateLegacy
  split
  · rename_i hcond
    exact absurd rfl hcond.1
  · rfl

theorem maxSearchId_some (d : RawDataset) (m : Int) (h : maxSearchId d = some m) :
    maxSearchId ⟨"search_id", d.rows⟩ = some m := by
  unfold maxSearchId at h ⊢
  by_cases hid : d.idColName = "search_id"
  · rw [if_pos hid] at h
    rw [if_pos rfl]
    exact h
  · rw [if_neg hid] at h
    exact absurd h (by simp)

/-- C10 counterexample: a call in which no candidate survives (here a single
record whose title trims to empty) against an absent dataset rewrites the
file as a present-but-empty dataset and returns batch id 1, but the next call
against that same dataset fails while loading (`int(nan)` raises) instead of
computing and using id 1 again. -/
theorem c10_counterexample :
    update_lsr_database [{ title := " " }] .absent 1 2 "2026-01-01"
      = some (.present ⟨"search_id", []⟩, 0, 1) ∧
    update_lsr_database [{ title := "Z" }] (.present ⟨"search_id", []⟩) 1 2
        "2026-01-02"
      = none := by
  decide

/-- C10 amended: a call in which no candidate survives still rewrites the
dataset file, with content exactly the previously stored rows; if at least
one row was previously stored, any later call against the written dataset
computes and uses the same batch identifier again, while if none was (the
dataset was absent or empty), every later call against the written dataset
fails while loading instead. -/
theorem c10_no_survivors_frame (records : List CandidateRecord)
    (file : DatasetFile) (ssy sey : Int) (rd : String) (f' : DatasetFile)
    (sid : Int)
    (h : update_lsr_database records file ssy sey rd = some (f', 0, sid)) :
    f' = .present ⟨"search_id", oldRowsOf file⟩ ∧
    (oldRowsOf file ≠ [] →
      ∀ records2 ssy2 sey2 rd2 f2 n2 sid2,
        update_lsr_database records2 f' ssy2 sey2 rd2 = some (f2, n2, sid2) →
        sid2 = sid) ∧
    (oldRowsOf file = [] →
      ∀ records2 ssy2 sey2 rd2,
        update_lsr_database records2 f' ssy2 sey2 rd2 = none) := by
  unfold update_lsr_database at h
  cases hl : loadDataset file with
  | none => rw [hl] at h; exact absurd h (by simp)
  | some p =>
    obtain ⟨oldRows, nextId⟩ := p
    rw [hl] at h
    simp only [Option.some.injEq, Prod.mk.injEq] at h
    obtain ⟨hf, hn, hid⟩ := h
    have hnew : processRecords (oldRows.map storedTitleKey) nextId ssy sey rd
        records = [] := List.length_eq_zero.mp hn
    have ho : oldRows = oldRowsOf file := loadDataset_rows _ _ _ hl
    have hf' : f' = .present ⟨"search_id", oldRowsOf file⟩ := by
      rw [← hf, hnew, List.append_nil, ho]
    refine ⟨hf', ?_, ?_⟩
    · intro hne records2 ssy2 sey2 rd2 f2 n2 sid2 h2
      cases file with
      | absent => exact absurd rfl hne
      | present d =>
        simp only [loadDataset] at hl
        cases hm : maxSearchId (migrateLegacy d) with
        | none => rw [hm] at hl; exact absurd hl (by simp)
        | some m =>
          rw [hm] at hl
          simp only [Option.some.injEq, Prod.mk.injEq] at hl
          have hrows : oldRowsOf (DatasetFile.present d) = (migrateLegacy d).rows := by
            rw [← ho, ← hl.1]
          have hmax2 :
              maxSearchId ⟨"search_id", oldRowsOf (DatasetFile.present d)⟩ = some m := by
            rw [hrows]
            exact maxSearchId_some (migrateLegacy d) m hm
          have hload2 :
              loadDataset f' = some (oldRowsOf (DatasetFile.present d), m + 1) := by
            rw [hf']
            simp only [loadDataset, migrateLegacy_id, hmax2]
          unfold update_lsr_database at h2
          rw [hload2] at h2
          simp only [Option.some.injEq, Prod.mk.injEq] at h2
          rw [← h2.2.2, ← hid, ← hl.2]
    · intro hnil records2 ssy2 sey2 rd2
      rw [hf', hnil]
      rfl

theorem processRecords_singleton_dup (existing : List String) (ni ssy sey : Int)
    (rd : String) (c : CandidateRecord) (hT : pyStrip c.title ≠ "")
    (hmem : existing.contains (pyLower (pyStrip c.title)) = true) :
    processRecords existing ni ssy sey rd [c] = [] := by
  simp only [processRecords]
  rw [if_neg hT, if_pos hmem]

theorem processRecords_singleton_new (existing : List String) (ni ssy sey : Int)
    (rd : String) (c : CandidateRecord) (hT : pyStrip c.title ≠ "")
    (hmem : ¬ existing.contains (pyLower (pyStrip c.title)) = true) :
    processRecords existing ni ssy sey rd [c]
      = [{ database := c.database, title := pyStrip c.title,
           journal := c.journal, year := c.year, abstract := c.abstract,
           abstract_source := c.abstract_source, search_id := ni,
           search_start_year := ssy, search_end_year := sey,
           run_date := rd }] := by
  simp only [processRecords]
  rw [if_neg hT, if_neg hmem]

theorem maxSearchId_isSome (rows : List StoredRow) (hne : rows ≠ []) :
    ∃ m, maxSearchId ⟨"search_id", rows⟩ = some m := by
  unfold maxSearchId
  rw [if_pos rfl]
  cases rows with
  | nil => exact absurd rfl hne
  | cons r rs => exact ⟨_, rfl⟩

/-- The number of stored rows whose normalized (lowercased, trimmed) title
equals `key`. -/
def countTitle (rows : List StoredRow) (key : String) : Nat :=
  (rows.filter (fun r => pyLower (pyStrip r.title) = key)).length

theorem countTitle_append (a b : List StoredRow) (k : String) :
    countTitle (a ++ b) k = countTitle a k + countTitle b k := by
  simp [countTitle, List.filter_append]

theorem countTitle_pos_of_contains (rows : List StoredRow) (key : String)
    (h : (rows.map storedTitleKey).contains key = true) :
    1 ≤ countTitle rows key := by
  rw [List.elem_iff, List.mem_map] at h
  obtain ⟨r, hr, hkey⟩ := h
  have hmemf : r ∈ rows.filter (fun r => pyLower (pyStrip r.title) = key) := by
    rw [List.mem_filter]
    exact ⟨hr, decide_eq_true (by rw [← storedTitleKey_eq]; exact hkey)⟩
  exact List.length_pos.mpr (List.ne_nil_of_mem hmemf)

theorem countTitle_zero_of_not_contains (rows : List StoredRow) (key : String)
    (h : ¬ (rows.map storedTitleKey).contains key = true) :
    countTitle rows key = 0 := by
  rw [countTitle, List.length_eq_zero, List.filter_eq_nil_iff]
  intro r hr hpred
  apply h
  rw [List.elem_iff, List.mem_map]
  exact ⟨r, hr, by rw [storedTitleKey_eq]; exact of_decide_eq_true hpred⟩

/-- C2 counterexample: the claim quantifies over every non-empty title and
every dataset state, but a title that is non-empty yet trims to empty
(`" "`) is dropped by both imports, leaving zero stored rows with its
normalized title, not one. -/
theorem c2_counterexample :
    (" " : String) ≠ "" ∧
    update_lsr_database [{ title := " " }]
        (.present ⟨"search_id", [sampleRow5]⟩) 1 2 "2026-02-02"
      = some (.present ⟨"search_id", [sampleRow5]⟩, 0, 6) ∧
    update_lsr_database [{ title := " " }]
        (.present ⟨"search_id", [sampleRow5]⟩) 1 2 "2026-02-03"
      = some (.present ⟨"search_id", [sampleRow5]⟩, 0, 6) ∧
    countTitle [sampleRow5] (pyLower (pyStrip " ")) = 0 := by
  decide

/-- C2 amended: for every title `T` that is non-empty after trimming and
every dataset state that loads successfully and holds at most one row whose
normalized title equals the normalization of `T`, importing a record titled
`T` in one batch and again in a later batch leaves exactly one stored row
with that normalized title. -/
theorem c2_two_batches_leave_one_row (T : String) (hT : pyStrip T ≠ "")
    (c1 c2 : CandidateRecord) (h1 : c1.title = T) (h2 : c2.title = T)
    (file : DatasetFile) (oldRows : List StoredRow) (nid : Int)
    (hload : loadDataset file = some (oldRows, nid))
    (hcount : countTitle oldRows (pyLower (pyStrip T)) ≤ 1)
    (ssy1 sey1 ssy2 sey2 : Int) (rd1 rd2 : String) :
    ∃ d1 n1 sid1 d2 n2 sid2,
      update_lsr_database [c1] file ssy1 sey1 rd1
        = some (.present d1, n1, sid1) ∧
      update_lsr_database [c2] (.present d1) ssy2 sey2 rd2
        = some (.present d2, n2, sid2) ∧
      countTitle d2.rows (pyLower (pyStrip T)) = 1 := by
  have hT1 : pyStrip c1.title ≠ "" := by rw [h1]; exact hT
  have hT2 : pyStrip c2.title ≠ "" := by rw [h2]; exact hT
  by_cases hmem : (oldRows.map storedTitleKey).contains (pyLower (pyStrip T)) = true
  · -- a matching row was already stored: both imports drop the candidate
    have hmem1 : (oldRows.map storedTitleKey).contains
        (pyLower (pyStrip c1.title)) = true := by rw [h1]; exact hmem
    have hmem2 : (oldRows.map storedTitleKey).contains
        (pyLower (pyStrip c2.title)) = true := by rw [h2]; exact hmem
    have hup1 : update_lsr_database [c1] file ssy1 sey1 rd1
        = some (.present ⟨"search_id", oldRows⟩, 0, nid) := by
      unfold update_lsr_database
      rw [hload]
      dsimp only
      rw [processRecords_singleton_dup _ _ _ _ _ _ hT1 hmem1, List.append_nil]
      rfl
    have hne : oldRows ≠ [] := by
      intro heq
      rw [heq] at hmem
      simp at hmem
    obtain ⟨m, hmax⟩ := maxSearchId_isSome oldRows hne
    have hload2 : loadDataset (.present ⟨"search_id", oldRows⟩)
        = some (oldRows, m + 1) := by
      simp only [loadDataset, migrateLegacy_id, hmax]
    have hup2 : update_lsr_database [c2] (.present ⟨"search_id", oldRows⟩)
        ssy2 sey2 rd2 = some (.present ⟨"search_id", oldRows⟩, 0, m + 1) := by
      unfold update_lsr_database
      rw [hload2]
      dsimp only
      rw [processRecords_singleton_dup _ _ _ _ _ _ hT2 hmem2, List.append_nil]
      rfl
    refine ⟨⟨"search_id", oldRows⟩, 0, nid, ⟨"search_id", oldRows⟩, 0, m + 1,
      hup1, hup2, ?_⟩
    exact le_antisymm hcount (countTitle_pos_of_contains oldRows _ hmem)
  · -- no matching row yet: the first import adds one, the second drops it
    have hmem1 : ¬ (oldRows.map storedTitleKey).contains
        (pyLower (pyStrip c1.title)) = true := by rw [h1]; exact hmem
    have hup1 : update_lsr_database [c1] file ssy1 sey1 rd1
        = some (.present ⟨"search_id", oldRows ++
            [{ database := c1.database, title := pyStrip c1.title,
               journal := c1.journal, year := c1.year, abstract := c1.abstract,
               abstract_source := c1.abstract_source, search_id := nid,
               search_start_year := ssy1, search_end_year := sey1,
               run_date := rd1 }]⟩, 1, nid) := by
      unfold update_lsr_database
      rw [hload]
      dsimp only
      rw [processRecords_singleton_new _ _ _ _ _ _ hT1 hmem1]
      rfl
    set newRow : StoredRow :=
      { database := c1.database, title := pyStrip c1.title,
        journal := c1.journal, year := c1.year, abstract := c1.abstract,
        abstract_source := c1.abstract_source, search_id := nid,
        search_start_year := ssy1, search_end_year := sey1,
        run_date := rd1 } with hnewRow
    have hkeyrow : storedTitleKey newRow = pyLower (pyStrip T) := by
      show pyStrip (pyLower (pyStrip c1.title)) = _
      rw [pyStrip_pyLower, pyStrip_idem, h1]
    have hne1 : oldRows ++ [newRow] ≠ [] := by simp
    obtain ⟨m, hmax⟩ := maxSearchId_isSome (oldRows ++ [newRow]) hne1
    have hload2 : loadDataset (.present ⟨"search_id", oldRows ++ [newRow]⟩)
        = some (oldRows ++ [newRow], m + 1) := by
      simp only [loadDataset, migrateLegacy_id, hmax]
    have hmem2 : ((oldRows ++ [newRow]).map storedTitleKey).contains
        (pyLower (pyStrip c2.title)) = true := by
      rw [h2, List.elem_iff, List.map_append]
      apply List.mem_append_right
      simp [hkeyrow]
    have hup2 : update_lsr_database [c2]
        (.present ⟨"search_id", oldRows ++ [newRow]⟩) ssy2 sey2 rd2
        = some (.present ⟨"search_id", oldRows ++ [newRow]⟩, 0, m + 1) := by
      unfold update_lsr_database
      rw [hload2]
      dsimp only
      rw [processRecords_singleton_dup _ _ _ _ _ _ hT2 hmem2, List.append_nil]
      rfl
    refine ⟨⟨"search_id", oldRows ++ [newRow]⟩, 1, nid,
      ⟨"search_id", oldRows ++ [newRow]⟩, 0, m + 1, hup1, hup2, ?_⟩
    rw [countTitle_append, countTitle_zero_of_not_contains oldRows _ hmem]
    have hpred : pyLower (pyStrip newRow.title) = pyLower (pyStrip T) := by
      show pyLower (pyStrip (pyStrip c1.title)) = _
      rw [pyStrip_idem, h1]
    simp [countTitle, List.filter, hpred]

theorem c2_two_batches_leave_one_row_witness :
    ∃ d1 n1 sid1 d2 n2 sid2,
      update_lsr_database [{ title := " New Study " }]
          (.present ⟨"search_id", [sampleRow5]⟩) 1 2 "2026-02-02"
        = some (.present d1, n1, sid1) ∧
      update_lsr_database [{ title := " New Study " }] (.present d1) 1 2
          "2026-02-03"
        = some (.present d2, n2, sid2) ∧
      countTitle d2.rows (pyLower (pyStrip " New Study ")) = 1 :=
  c2_two_batches_leave_one_row " New Study " (by decide)
    { title := " New Study " } { title := " New Study " } rfl rfl
    (.present ⟨"search_id", [sampleRow5]⟩) [sampleRow5] 6 (by decide)
    (by decide) 1 2 1 2 "2026-02-02" "2026-02-03"

theorem c10_no_survivors_frame_witness :
    (DatasetFile.present ⟨"search_id", [sampleRow5]⟩
        = .present ⟨"search_id",
            oldRowsOf (.present ⟨"search_id", [sampleRow5]⟩)⟩) ∧
    (oldRowsOf (DatasetFile.present ⟨"search_id", [sampleRow5]⟩) ≠ [] →
      ∀ records2 ssy2 sey2 rd2 f2 n2 sid2,
        update_lsr_database records2 (.present ⟨"search_id", [sampleRow5]⟩)
            ssy2 sey2 rd2 = some (f2, n2, sid2) →
        sid2 = 6) ∧
    (oldRowsOf (DatasetFile.present ⟨"search_id", [sampleRow5]⟩) = [] →
      ∀ records2 ssy2 sey2 rd2,
        update_lsr_database records2 (.present ⟨"search_id", [sampleRow5]⟩)
            ssy2 sey2 rd2 = none) :=
  c10_no_survivors_frame [{ title := "X" }]
    (.present ⟨"search_id", [sampleRow5]⟩) 1 2 "2026-02-02"
    (.present ⟨"search_id", [sampleRow5]⟩) 6 (by decide)

/-! ### Stage-progression claims (`lsr_app.py`) -/

/-- `os.path.exists(prev_path)` for the stage preceding `stage`
(the app never writes zero-byte files, so `absent` coincides with
non-existence for app-written datasets). -/
def prevExists (st : AppState) : StageIdx → Bool
  | .s0 => true
  | .s1 => st.stage0 ≠ .absent
  | .s2 => st.stage1.isSome

/-- `count_rows(prev_path)` for the stage preceding `stage`. -/
def prevCount (st : AppState) : StageIdx → Nat
  | .s0 => 0
  | .s1 => countRows0 st.stage0
  | .s2 => countRowsOpt st.stage1

/-- C5: an import targeting stage `n > 0` is rejected when the stage `n-1`
dataset file does not exist or when the uploaded record count exceeds its
row count; the handler then stops with the state — stage datasets and
provenance log — exactly as it was: all-or-nothing. -/
theorem c5_stage_validation_all_or_nothing (st : AppState) (stage : StageIdx)
    (rows : List UploadRow) (dbName strategy : String) (ssy sey : Int)
    (rd : String) (hstage : stage ≠ .s0)
    (hbad : prevExists st stage = false ∨ prevCount st stage < rows.length) :
    ∃ msg, confirmImport st stage rows dbName strategy ssy sey rd
      = (st, .rejected msg) := by
  cases stage with
  | s0 => exact absurd rfl hstage
  | s1 =>
    rcases hbad with hb | hb
    · have h0 : st.stage0 = .absent := by
        simp [prevExists] at hb
        exact hb
      exact ⟨_, by unfold confirmImport; dsimp only; rw [if_pos h0]⟩
    · by_cases h0 : st.stage0 = .absent
      · exact ⟨_, by unfold confirmImport; dsimp only; rw [if_pos h0]⟩
      · refine ⟨"Invalid CSV: records exceed previous stage.", ?_⟩
        unfold confirmImport
        dsimp only
        rw [if_neg h0, if_pos]
        simp only [prevCount] at hb
        exact hb
  | s2 =>
    rcases hbad with hb | hb
    · have h1 : st.stage1 = none := by
        simp [prevExists] at hb
        exact hb
      exact ⟨_, by unfold confirmImport; dsimp only; rw [if_pos h1]⟩
    · by_cases h1 : st.stage1 = none
      · exact ⟨_, by unfold confirmImport; dsimp only; rw [if_pos h1]⟩
      · refine ⟨"Invalid CSV: records exceed previous stage.", ?_⟩
        unfold confirmImport
        dsimp only
        rw [if_neg h1, if_pos]
        simp only [prevCount] at hb
        exact hb

theorem c5_stage_validation_all_or_nothing_witness :
    ∃ msg, confirmImport ⟨.absent, none, none, []⟩ .s1 [{ title := "a" }]
        "PubMed" "q" 2000 2020 "2026-02-02"
      = (⟨.absent, none, none, []⟩, .rejected msg) :=
  c5_stage_validation_all_or_nothing ⟨.absent, none, none, []⟩ .s1
    [{ title := "a" }] "PubMed" "q" 2000 2020 "2026-02-02"
    (by decide) (Or.inl (by decide))

theorem countRows0_update (records : List CandidateRecord) (file : DatasetFile)
    (ssy sey : Int) (rd : String) (f' : DatasetFile) (n : Nat) (sid : Int)
    (h : update_lsr_database records file ssy sey rd = some (f', n, sid)) :
    countRows0 f' = countRows0 file + n := by
  unfold update_lsr_database at h
  cases hl : loadDataset file with
  | none => rw [hl] at h; exact absurd h (by simp)
  | some p =>
    obtain ⟨o, ni⟩ := p
    rw [hl] at h
    simp only [Option.some.injEq, Prod.mk.injEq] at h
    obtain ⟨hf, hn, hid⟩ := h
    have ho : o = oldRowsOf file := loadDataset_rows _ _ _ hl
    have hcount : countRows0 file = o.length := by
      rw [ho]
      cases file <;> rfl
    rw [← hf]
    show (o ++ processRecords (o.map storedTitleKey) ni ssy sey rd records).length
      = countRows0 file + n
    rw [List.length_append, hcount, hn]

/-- Step 1 of the C1 run: stage-0 import of two records into a fresh
project. -/
def c1Run1 : AppState × ImportResult :=
  confirmImport ⟨.absent, none, none, []⟩ .s0
    [{ title := "a" }, { title := "b" }] "PubMed" "q" 2000 2020 "2026-02-02"

/-- Step 2 of the C1 run: stage-1 replacement with 2 rows. -/
def c1Run2 : AppState × ImportResult :=
  confirmImport c1Run1.1 .s1 [{}, {}] "x" "x" 2000 2020 "2026-02-03"

/-- Step 3 of the C1 run: stage-2 replacement with 2 rows. -/
def c1Run3 : AppState × ImportResult :=
  confirmImport c1Run2.1 .s2 [{}, {}] "x" "x" 2000 2020 "2026-02-04"

/-- Step 4 of the C1 run: stage-1 replacement with 1 row. -/
def c1Run4 : AppState × ImportResult :=
  confirmImport c1Run3.1 .s1 [{}] "x" "x" 2000 2020 "2026-02-05"

/-- C1 counterexample: a reachable sequence of accepted imports that breaks
the narrowing invariant. Import 2 records at stage 0, replace stage 1 with 2
rows, replace stage 2 with 2 rows (all accepted, invariant holds), then
replace stage 1 with 1 row: this import is accepted (1 ≤ stage 0's 2 rows)
but leaves `count(stage 2) = 2 > count(stage 1) = 1`. -/
theorem c1_counterexample :
    c1Run1.2 = .imported 2 ∧ c1Run2.2 = .imported 2 ∧
    c1Run3.2 = .imported 2 ∧ c1Run4.2 = .imported 1 ∧
    narrowing c1Run3.1 ∧ ¬ narrowing c1Run4.1 := by
  decide

/-- C1 amended: an accepted import into stage `n > 0` establishes
`count(stage n) ≤ count(stage n-1)` at the moment of the import, and stage-0
and stage-2 imports preserve the full narrowing invariant — but a stage-1
replacement may break `count(stage 2) ≤ count(stage 1)`, so the invariant is
not preserved by every import operation. -/
theorem c1_accepted_import_narrowing (st : AppState) (stage : StageIdx)
    (rows : List UploadRow) (dbName strategy : String) (ssy sey : Int)
    (rd : String) (st' : AppState) (k : Nat)
    (hrun : confirmImport st stage rows dbName strategy ssy sey rd
      = (st', .imported k))
    (hinv : narrowing st) :
    countRowsOpt st'.stage1 ≤ countRows0 st'.stage0 ∧
    (stage ≠ .s1 → narrowing st') := by
  cases stage with
  | s0 =>
    unfold confirmImport at hrun
    dsimp only at hrun
    cases hup : normalize_and_import_csv rows st.stage0 dbName ssy sey rd with
    | none =>
      rw [hup] at hrun
      simp only [Prod.mk.injEq] at hrun
      exact absurd hrun.2 (by simp)
    | some p =>
      obtain ⟨f', added, sid⟩ := p
      rw [hup] at hrun
      simp only [Prod.mk.injEq] at hrun
      obtain ⟨hst', -⟩ := hrun
      have hgrow : countRows0 st.stage0 ≤ countRows0 f' := by
        have := countRows0_update _ _ _ _ _ _ _ _ hup
        omega
      rw [← hst']
      refine ⟨le_trans hinv.1 hgrow, fun _ => ⟨le_trans hinv.1 hgrow, hinv.2⟩⟩
  | s1 =>
    unfold confirmImport at hrun
    dsimp only at hrun
    by_cases h0 : st.stage0 = .absent
    · rw [if_pos h0] at hrun
      simp only [Prod.mk.injEq] at hrun
      exact absurd hrun.2 (by simp)
    · rw [if_neg h0] at hrun
      by_cases hc : rows.length > countRows0 st.stage0
      · rw [if_pos hc] at hrun
        simp only [Prod.mk.injEq] at hrun
        exact absurd hrun.2 (by simp)
      · rw [if_neg hc] at hrun
        simp only [Prod.mk.injEq] at hrun
        obtain ⟨hst', -⟩ := hrun
        rw [← hst']
        exact ⟨le_of_not_lt hc, fun hne => absurd rfl hne⟩
  | s2 =>
    unfold confirmImport at hrun
    dsimp only at hrun
    by_cases h1 : st.stage1 = none
    · rw [if_pos h1] at hrun
      simp only [Prod.mk.injEq] at hrun
      exact absurd hrun.2 (by simp)
    · rw [if_neg h1] at hrun
      by_cases hc : rows.length > countRowsOpt st.stage1
      · rw [if_pos hc] at hrun
        simp only [Prod.mk.injEq] at hrun
        exact absurd hrun.2 (by simp)
      · rw [if_neg hc] at hrun
        simp only [Prod.mk.injEq] at hrun
        obtain ⟨hst', -⟩ := hrun
        rw [← hst']
        exact ⟨hinv.1, fun _ => ⟨hinv.1, le_of_not_lt hc⟩⟩

/-- The state reached by the concrete stage-0 import used as the witness
input for the amended C1 theorem. -/
def c1WitnessState : AppState :=
  { stage0 := .present ⟨"search_id",
      [{ database := some "PubMed", title := "a", journal := none,
         year := none, abstract := none, abstract_source := "csv_import",
         search_id := 1, search_start_year := 2000, search_end_year := 2020,
         run_date := "2026-02-02" }]⟩
    stage1 := none
    stage2 := none
    searches :=
      [{ search_id := some 1
         database := some "PubMed"
         search_strategy := some "q"
         search_start_year := 2000
         search_end_year := 2020
         run_date := "2026-02-02"
         records_raw := 1
         records_deduplicated := some 1
         import_stage := .s0 }] }

theorem c1_accepted_import_narrowing_witness :
    countRowsOpt c1WitnessState.stage1 ≤ countRows0 c1WitnessState.stage0 ∧
    (StageIdx.s0 ≠ StageIdx.s1 → narrowing c1WitnessState) :=
  c1_accepted_import_narrowing ⟨.absent, none, none, []⟩ .s0
    [{ title := "a" }] "PubMed" "q" 2000 2020 "2026-02-02"
    c1WitnessState 1 (by decide) (by decide)

/-! ### Column alias resolver claims -/

theorem dictLookup_none_iff (cols : List String) (k : String) :
    dictLookup (buildNormalized cols) k = none ↔
      ∀ c ∈ cols, normalize_colname c ≠ k := by
  unfold dictLookup buildNormalized
  rw [Option.map_eq_none', List.find?_eq_none]
  constructor
  · intro hnone c hc hk
    have hmem : (normalize_colname c, c) ∈ (cols.map
        (fun c => (normalize_colname c, c))).reverse := by
      rw [List.mem_reverse, List.mem_map]
      exact ⟨c, hc, rfl⟩
    have := hnone _ hmem
    simp at this
    exact this hk
  · intro hno p hp
    rw [List.mem_reverse, List.mem_map] at hp
    obtain ⟨c, hc, hpc⟩ := hp
    simp only [decide_eq_true_eq]
    intro hk
    rw [← hpc] at hk
    exact hno c hc hk

theorem dictLookup_some_mem (cols : List String) (k h : String)
    (hl : dictLookup (buildNormalized cols) k = some h) :
    h ∈ cols ∧ normalize_colname h = k := by
  unfold dictLookup buildNormalized at hl
  cases hf : ((cols.map (fun c => (normalize_colname c, c))).reverse.find?
      (fun p => p.1 = k)) with
  | none => rw [hf] at hl; exact absurd hl (by simp)
  | some p =>
    rw [hf] at hl
    simp only [Option.map_some', Option.some.injEq] at hl
    have hmem := List.mem_of_find?_eq_some hf
    have hpred := List.find?_some hf
    rw [List.mem_reverse, List.mem_map] at hmem
    obtain ⟨c, hc, hpc⟩ := hmem
    simp only [decide_eq_true_eq] at hpred
    rw [← hpc] at hpred hl
    simp only at hpred hl
    rw [hl] at hc hpred
    exact ⟨hc, hpred⟩

theorem resolveField_none_iff (aliases cols : List String) :
    resolveField (buildNormalized cols) aliases = none ↔
      ∀ c ∈ cols, normalize_colname c ∉ aliases := by
  unfold resolveField
  rw [List.findSome?_eq_none_iff]
  constructor
  · intro hnone c hc hmem
    have := hnone _ hmem
    rw [dictLookup_none_iff] at this
    exact this c hc rfl
  · intro hno a ha
    rw [dictLookup_none_iff]
    intro c hc hk
    exact hno c hc (hk ▸ ha)

theorem resolveField_some_mem (aliases cols : List String) (h : String)
    (hs : resolveField (buildNormalized cols) aliases = some h) :
    h ∈ cols ∧ normalize_colname h ∈ aliases ∧
      dictLookup (buildNormalized cols) (normalize_colname h) = some h := by
  unfold resolveField at hs
  obtain ⟨a, ha, hfa⟩ := List.exists_of_findSome?_eq_some hs
  obtain ⟨hc, hk⟩ := dictLookup_some_mem cols a h hfa
  exact ⟨hc, hk ▸ ha, hk ▸ hfa⟩

/-- C7 counterexample: with upload headers `["Title", "T itle"]`, both
normalizing to `"title"`, the first raw header whose normalized form is in
the title alias set is `"Title"`, but the resolver maps the title field to
`"T itle"`: the dict comprehension `{normalize_colname(c): c for c in
df.columns}` keeps the LAST header for a normalized form, not the first. -/
theorem c7_counterexample :
    (resolve_bibliographic_columns titleAliases abstractAliases journalAliases
        yearAliases ["Title", "T itle"]).title = some "T itle" ∧
    normalize_colname "Title" ∈ titleAliases ∧
    ("Title" : String) ≠ "T itle" := by
  decide

/-- C7 amended: for every iteration order of the four alias sets, each field
resolves to `none` exactly when no header's normalized form lies in the
field's alias set (no error for an unresolved title — the resolver is total
and just yields `none`), and otherwise to a header whose normalized form is
in the alias set — namely the LAST header carrying that normalized form,
the alias-set iteration order choosing which normalized form wins; the
first matching raw header is not necessarily chosen. -/
theorem c7_resolver_alias_matching (tOrd aOrd jOrd yOrd cols : List String)
    (ht : tOrd.Perm titleAliases) (ha : aOrd.Perm abstractAliases)
    (hj : jOrd.Perm journalAliases) (hy : yOrd.Perm yearAliases) :
    (((resolve_bibliographic_columns tOrd aOrd jOrd yOrd cols).title = none ↔
        ∀ c ∈ cols, normalize_colname c ∉ titleAliases) ∧
      ∀ h, (resolve_bibliographic_columns tOrd aOrd jOrd yOrd cols).title
          = some h →
        h ∈ cols ∧ normalize_colname h ∈ titleAliases ∧
        dictLookup (buildNormalized cols) (normalize_colname h) = some h) ∧
    (((resolve_bibliographic_columns tOrd aOrd jOrd yOrd cols).abstract = none ↔
        ∀ c ∈ cols, normalize_colname c ∉ abstractAliases) ∧
      ∀ h, (resolve_bibliographic_columns tOrd aOrd jOrd yOrd cols).abstract
          = some h →
        h ∈ cols ∧ normalize_colname h ∈ abstractAliases ∧
        dictLookup (buildNormalized cols) (normalize_colname h) = some h) ∧
    (((resolve_bibliographic_columns tOrd aOrd jOrd yOrd cols).journal = none ↔
        ∀ c ∈ cols, normalize_colname c ∉ journalAliases) ∧
      ∀ h, (resolve_bibliographic_columns tOrd aOrd jOrd yOrd cols).journal
          = some h →
        h ∈ cols ∧ normalize_colname h ∈ journalAliases ∧
        dictLookup (buildNormalized cols) (normalize_colname h) = some h) ∧
    (((resolve_bibliographic_columns tOrd aOrd jOrd yOrd cols).year = none ↔
        ∀ c ∈ cols, normalize_colname c ∉ yearAliases) ∧
      ∀ h, (resolve_bibliographic_columns tOrd aOrd jOrd yOrd cols).year
          = some h →
        h ∈ cols ∧ normalize_colname h ∈ yearAliases ∧
        dictLookup (buildNormalized cols) (normalize_colname h) = some h) := by
  have main : ∀ ord base : List String, ord.Perm base →
      ((resolveField (buildNormalized cols) ord = none ↔
        ∀ c ∈ cols, normalize_colname c ∉ base) ∧
      ∀ h, resolveField (buildNormalized cols) ord = some h →
        h ∈ cols ∧ normalize_colname h ∈ base ∧
        dictLookup (buildNormalized cols) (normalize_colname h) = some h) := by
    intro ord base hperm
    constructor
    · rw [resolveField_none_iff]
      constructor
      · intro hh c hc hmem
        exact hh c hc (hperm.mem_iff.mpr hmem)
      · intro hh c hc hmem
        exact hh c hc (hperm.mem_iff.mp hmem)
    · intro h hs
      obtain ⟨h1, h2, h3⟩ := resolveField_some_mem ord cols h hs
      exact ⟨h1, hperm.mem_iff.mp h2, h3⟩
  exact ⟨main tOrd titleAliases ht, main aOrd abstractAliases ha,
    main jOrd journalAliases hj, main yOrd yearAliases hy⟩

theorem c7_resolver_alias_matching_witness :
    (((resolve_bibliographic_columns titleAliases abstractAliases
          journalAliases yearAliases ["Article Title"]).title = none ↔
        ∀ c ∈ ["Article Title"], normalize_colname c ∉ titleAliases) ∧
      ∀ h, (resolve_bibliographic_columns titleAliases abstractAliases
          journalAliases yearAliases ["Article Title"]).title = some h →
        h ∈ ["Article Title"] ∧ normalize_colname h ∈ titleAliases ∧
        dictLookup (buildNormalized ["Article Title"]) (normalize_colname h)
          = some h) ∧
    (((resolve_bibliographic_columns titleAliases abstractAliases
          journalAliases yearAliases ["Article Title"]).abstract = none ↔
        ∀ c ∈ ["Article Title"], normalize_colname c ∉ abstractAliases) ∧
      ∀ h, (resolve_bibliographic_columns titleAliases abstractAliases
          journalAliases yearAliases ["Article Title"]).abstract = some h →
        h ∈ ["Article Title"] ∧ normalize_colname h ∈ abstractAliases ∧
        dictLookup (buildNormalized ["Article Title"]) (normalize_colname h)
          = some h) ∧
    (((resolve_bibliographic_columns titleAliases abstractAliases
          journalAliases yearAliases ["Article Title"]).journal = none ↔
        ∀ c ∈ ["Article Title"], normalize_colname c ∉ journalAliases) ∧
      ∀ h, (resolve_bibliographic_columns titleAliases abstractAliases
          journalAliases yearAliases ["Article Title"]).journal = some h →
        h ∈ ["Article Title"] ∧ normalize_colname h ∈ journalAliases ∧
        dictLookup (buildNormalized ["Article Title"]) (normalize_colname h)
          = some h) ∧
    (((resolve_bibliographic_columns titleAliases abstractAliases
          journalAliases yearAliases ["Article Title"]).year = none ↔
        ∀ c ∈ ["Article Title"], normalize_colname c ∉ yearAliases) ∧
      ∀ h, (resolve_bibliographic_columns titleAliases abstractAliases
          journalAliases yearAliases ["Article Title"]).year = some h →
        h ∈ ["Article Title"] ∧ normalize_colname h ∈ yearAliases ∧
        dictLookup (buildNormalized ["Article Title"]) (normalize_colname h)
          = some h) :=
  c7_resolver_alias_matching titleAliases abstractAliases journalAliases
    yearAliases ["Article Title"] (List.Perm.refl _) (List.Perm.refl _)
    (List.Perm.refl _) (List.Perm.refl _)

end LSR
